import Mathlib

/-!
# ARTGRID server — shallow embedding and verification

This file embeds the business logic of `src/server.py` (a Flask/SQLAlchemy
art-sharing backend) as pure Lean functions over an explicit database state,
and proves the specification's claims about it.

Modelling conventions:
* The relational store is a `DB` structure holding one list per table, plus
  the next auto-increment primary key per table.
* Python `int` columns (`likes_count`, `views_count`) are `Int`, so the
  source's `max(0, c - 1)` is translated literally.
* Timestamps are abstract `Nat` clock values passed into each operation
  (`datetime.utcnow()` becomes the parameter `now`).
* External collaborators that the spec places out of scope (password hashing,
  Cloudinary upload, e-mail delivery) are modelled as abstract data: hashes
  are tagged strings, the storage provider's answer is an `Option String`
  argument, and e-mail sending (fire-and-forget, never affects the response
  or the database) is omitted.
* Each HTTP handler becomes a function `DB → … → Result × DB`; the per-route
  result type mirrors the handler's distinct `return` statements, and a
  `statusCode` function gives the HTTP code of each result.
-/

namespace Artgrid

/-! ## Data model (section 3 MODELS of `server.py`) -/

/-- Row of the `user` table. -/
structure User where
  id : Nat
  full_name : String
  email : String
  password_hash : String
  dob_hash : String
  student_id : String
  year_of_study : String
  profile_image_url : Option String
  verification_status : String
  role : String
  created_at : Nat
  deriving Repr, DecidableEq

/-- Row of the `artwork` table. `status` is one of
`"pending"`, `"approved"`, `"rejected"`. -/
structure Artwork where
  id : Nat
  user_id : Nat
  status : String
  title : String
  description : String
  medium : String
  category : String
  file_url : String
  thumbnail_url : String
  tags : String
  creation_date : Option String
  submission_date : Nat
  approval_date : Option Nat
  likes_count : Int
  views_count : Int
  is_featured : Bool
  deriving Repr, DecidableEq

/-- Row of the `like` table (unique on `(user_id, artwork_id)`). -/
structure Like where
  id : Nat
  user_id : Nat
  artwork_id : Nat
  timestamp : Nat
  deriving Repr, DecidableEq

/-- Row of the `comment` table. -/
structure Comment where
  id : Nat
  user_id : Nat
  artwork_id : Nat
  content : String
  timestamp : Nat
  is_flagged : Bool
  deriving Repr, DecidableEq

/-- Row of the `moderation` table. `feedback` is `none` on approval
(Python `None`), `some s` on rejection. -/
structure Moderation where
  id : Nat
  artwork_id : Nat
  moderator_id : Nat
  action : String
  feedback : Option String
  timestamp : Nat
  deriving Repr, DecidableEq

/-- The whole relational database: one list per table plus the next
auto-increment primary key of each table. -/
structure DB where
  users : List User
  artworks : List Artwork
  likes : List Like
  comments : List Comment
  moderations : List Moderation
  nextUserId : Nat
  nextArtworkId : Nat
  nextLikeId : Nat
  nextCommentId : Nat
  nextModerationId : Nat
  deriving Repr, DecidableEq

/-- The empty database, as created by `db.create_all()` before any row is
inserted (SQLite auto-increment keys start at 1). -/
def DB.empty : DB :=
  { users := [], artworks := [], likes := [], comments := [], moderations := []
    nextUserId := 1, nextArtworkId := 1, nextLikeId := 1, nextCommentId := 1
    nextModerationId := 1 }

/-! ## Utilities (section 4 of `server.py`) -/

/-- Characters admitted in the local part of the registration e-mail,
the class `[a-zA-Z0-9._%+-]` of `validate_uopeople_email`. -/
def isLocalChar (c : Char) : Bool :=
  (('a' ≤ c && c ≤ 'z') || ('A' ≤ c && c ≤ 'Z') || ('0' ≤ c && c ≤ '9')
    || c = '.' || c = '_' || c = '%' || c = '+' || c = '-')

/-- The fixed domain suffix `@my.uopeople.edu` of the e-mail pattern. -/
def emailSuffix : List Char := "@my.uopeople.edu".toList

/-- `validate_uopeople_email`: `bool(re.match(r"^[a-zA-Z0-9._%+-]+@my\.uopeople\.edu$", email))`.
The string must be a non-empty run of local-part characters followed by the
literal domain; Python's `$` also accepts one trailing `'\n'`. Since `'@'`
is not a local-part character, the local part is exactly the prefix before
the first `'@'`. -/
def validate_uopeople_email (email : String) : Bool :=
  let cs := email.toList
  let loc := cs.takeWhile (fun c => c ≠ '@')
  let rest := cs.drop loc.length
  (!loc.isEmpty) && loc.all isLocalChar
    && (rest = emailSuffix || rest = emailSuffix ++ ['\n'])

/-- `hash_dob`: SHA-256 of the date-of-birth string. The hash function is an
out-of-scope collaborator; it is modelled as an injective tagging. -/
def hash_dob (dob : String) : String := "sha256:" ++ dob

/-- `werkzeug.generate_password_hash`: out-of-scope collaborator, modelled
as an injective tagging. -/
def generate_password_hash (password : String) : String := "pbkdf2:" ++ password

/-- Lower-case a list of characters (ASCII is all the blocklist needs). -/
def lowerChars (cs : List Char) : List Char := cs.map Char.toLower

/-- `allowed_file`: the filename contains a `"."` and the part after the
last `"."`, lower-cased, is one of the allowed extensions. -/
def allowed_file (filename : String) : Bool :=
  let cs := filename.toList
  cs.contains '.'
    && (String.mk (lowerChars ((cs.reverse.takeWhile (fun c => c ≠ '.')).reverse)))
        ∈ ["png", "jpg", "jpeg", "gif", "mp4"]

/-- `l₁.infixOf l₂` : `l₁` occurs as a contiguous run inside `l₂`
(executable check used for the comment blocklist). -/
def infixOf (l₁ l₂ : List Char) : Bool :=
  match l₂ with
  | [] => l₁.isEmpty
  | _ :: t => l₁.isPrefixOf l₂ || infixOf l₁ t

/-- The static comment blocklist of `add_comment`:
`any(w in content.lower() for w in ["spam", "inappropriate"])`. -/
def containsBlocked (content : String) : Bool :=
  ["spam", "inappropriate"].any
    (fun w => infixOf w.toList (lowerChars content.toList))

/-- `moderator_required`: the JWT identity resolves to a user whose role is
`moderator` or `admin`. -/
def isModerator (db : DB) (uid : Nat) : Bool :=
  match db.users.find? (fun u => u.id = uid) with
  | none => false
  | some u => u.role = "moderator" || u.role = "admin"

/-- Look an artwork up by primary key (`Artwork.query.get`). -/
def findArtwork (db : DB) (aid : Nat) : Option Artwork :=
  db.artworks.find? (fun a => a.id = aid)

/-- The row filter of `Like.query.filter_by(user_id=..., artwork_id=...)`. -/
def likePred (uid aid : Nat) : Like → Bool :=
  fun l => l.user_id = uid && l.artwork_id = aid

/-- `artwork.likes_count = max(0, artwork.likes_count - 1)`. -/
def decLike (a : Artwork) : Artwork :=
  { a with likes_count := max 0 (a.likes_count - 1) }

/-- `artwork.likes_count += 1`. -/
def incLike (a : Artwork) : Artwork :=
  { a with likes_count := a.likes_count + 1 }

/-- `artwork.views_count += 1`. -/
def incViews (a : Artwork) : Artwork :=
  { a with views_count := a.views_count + 1 }

/-- The row mutation of a successful `approve`. -/
def approveArt (now : Nat) (a : Artwork) : Artwork :=
  { a with status := "approved", approval_date := some now }

/-- The row mutation of a successful `reject`. -/
def rejectArt (a : Artwork) : Artwork :=
  { a with status := "rejected" }

/-- Apply `f` to the artwork row with primary key `aid` (the ORM mutation of
the fetched row, written back at commit). -/
def updateArtwork (db : DB) (aid : Nat) (f : Artwork → Artwork) : DB :=
  { db with artworks := db.artworks.map (fun a => if a.id = aid then f a else a) }

/-! ## Route handlers -/

/-- The JSON body of `/api/auth/register`, with all six required keys
present (a request missing a key is answered 400 before any other check
and leaves the database untouched, so it carries no information for the
properties below). -/
structure RegisterReq where
  full_name : String
  email : String
  password : String
  dob : String
  student_id : String
  year_of_study : String
  deriving Repr, DecidableEq

/-- The distinct responses of the `register` handler. -/
inductive RegisterResult where
  | invalidEmail
  | emailTaken
  | studentIdTaken
  | success (user_id : Nat)
  deriving Repr, DecidableEq

/-- HTTP status code of each `register` response. -/
def RegisterResult.statusCode : RegisterResult → Nat
  | .invalidEmail => 400
  | .emailTaken => 400
  | .studentIdTaken => 400
  | .success _ => 201

/-- The `User(...)` row built by `register`. `verification_status` repeats
the source's conditional
`"verified" if validate_uopeople_email(...) else "pending"`. -/
def registeredUser (db : DB) (r : RegisterReq) (now : Nat) : User :=
  { id := db.nextUserId
    full_name := r.full_name
    email := r.email
    password_hash := generate_password_hash r.password
    dob_hash := hash_dob r.dob
    student_id := r.student_id
    year_of_study := r.year_of_study
    profile_image_url := none
    verification_status :=
      if validate_uopeople_email r.email then "verified" else "pending"
    role := "student"
    created_at := now }

/-- `register` (`POST /api/auth/register`): validate the institutional
e-mail, reject duplicate e-mail or student id, then insert the new user. -/
def register (db : DB) (r : RegisterReq) (now : Nat) : RegisterResult × DB :=
  if ¬ validate_uopeople_email r.email then (.invalidEmail, db)
  else if db.users.any (fun u => u.email = r.email) then (.emailTaken, db)
  else if db.users.any (fun u => u.student_id = r.student_id) then (.studentIdTaken, db)
  else
    let u := registeredUser db r now
    (.success u.id,
      { db with users := db.users ++ [u], nextUserId := db.nextUserId + 1 })

/-- The multipart form of `/api/artworks/upload`. `file` is `none` when the
request has no `"file"` part; `title`, `medium`, `category` are `none` when
the form key is absent (Python's `form.get` default). -/
structure UploadReq where
  file : Option String
  title : Option String
  description : String
  medium : Option String
  category : Option String
  tags : String
  creation_date : Option String
  deriving Repr, DecidableEq

/-- Python truthiness of an optional form string: absent and `""` are falsy. -/
def formFalsy : Option String → Bool
  | none => true
  | some s => s.isEmpty

/-- The `Artwork(...)` row built by `upload_artwork` once validation and
the storage upload have passed: the status is `"approved"` exactly when the
uploader's `verification_status` is `"verified"`, and `approval_date` is
left unset. -/
def uploadedArtwork (db : DB) (user : User) (r : UploadReq) (url : String)
    (now : Nat) : Artwork :=
  { id := db.nextArtworkId
    user_id := user.id
    title := r.title.getD ""
    description := r.description
    medium := r.medium.getD ""
    category := r.category.getD ""
    file_url := url
    thumbnail_url := url
    tags := r.tags
    creation_date := r.creation_date
    submission_date := now
    approval_date := none
    likes_count := 0
    views_count := 0
    is_featured := false
    status :=
      if user.verification_status = "verified" then "approved"
      else "pending" }

/-- The distinct responses of the `upload_artwork` handler. -/
inductive UploadResult where
  | userNotFound
  | noFile
  | noFileSelected
  | badFileType
  | missingFields
  | uploadFailed
  | created (artwork_id : Nat) (status : String)
  deriving Repr, DecidableEq

/-- HTTP status code of each `upload_artwork` response. -/
def UploadResult.statusCode : UploadResult → Nat
  | .userNotFound => 404
  | .noFile => 400
  | .noFileSelected => 400
  | .badFileType => 400
  | .missingFields => 400
  | .uploadFailed => 500
  | .created _ _ => 201

/-- `upload_artwork` (`POST /api/artworks/upload`), for an authenticated
user `uid` present in the database. `cloudResult` is the out-of-scope
storage provider's answer for this request (`upload_to_cloudinary`): `none`
on upload failure, `some url` on success. The new artwork's status is
`"approved"` when the uploader's `verification_status` is `"verified"`,
else `"pending"`. -/
def upload_artwork (db : DB) (uid : Nat) (r : UploadReq)
    (cloudResult : Option String) (now : Nat) : UploadResult × DB :=
  match db.users.find? (fun u => u.id = uid) with
  | none => (.userNotFound, db)  -- User.query.get_or_404
  | some user =>
    match r.file with
    | none => (.noFile, db)
    | some filename =>
      if filename.isEmpty then (.noFileSelected, db)
      else if ¬ allowed_file filename then (.badFileType, db)
      else if formFalsy r.title || formFalsy r.medium || formFalsy r.category then
        (.missingFields, db)
      else
        match cloudResult with
        | none => (.uploadFailed, db)
        | some url =>
          let a := uploadedArtwork db user r url now
          (.created a.id a.status,
            { db with artworks := db.artworks ++ [a]
                      nextArtworkId := db.nextArtworkId + 1 })

/-- The distinct responses of `get_artwork`. On success the handler's JSON
is the fetched row after the view increment; the result carries that row. -/
inductive GetArtworkResult where
  | notFound
  | ok (a : Artwork)
  deriving Repr, DecidableEq

/-- HTTP status code of each `get_artwork` response. -/
def GetArtworkResult.statusCode : GetArtworkResult → Nat
  | .notFound => 404
  | .ok _ => 200

/-- `get_artwork` (`GET /api/artworks/<id>`): 404 unless the artwork exists
and is approved; otherwise `views_count += 1` is committed and the updated
row returned. -/
def get_artwork (db : DB) (aid : Nat) : GetArtworkResult × DB :=
  match findArtwork db aid with
  | none => (.notFound, db)
  | some a =>
    if a.status ≠ "approved" then (.notFound, db)
    else (.ok (incViews a), updateArtwork db aid incViews)

/-- The distinct responses of `toggle_like`. -/
inductive ToggleResult where
  | notFound
  | ok (liked : Bool) (likes_count : Int)
  deriving Repr, DecidableEq

/-- HTTP status code of each `toggle_like` response. -/
def ToggleResult.statusCode : ToggleResult → Nat
  | .notFound => 404
  | .ok _ _ => 200

/-- `toggle_like` (`POST /api/artworks/<id>/like`) for the authenticated
user `uid`: 404 unless the artwork exists and is approved; if a
`Like(uid, aid)` row exists, delete it and set
`likes_count = max(0, likes_count - 1)`; else insert one and increment. -/
def toggle_like (db : DB) (uid aid : Nat) (now : Nat) : ToggleResult × DB :=
  match findArtwork db aid with
  | none => (.notFound, db)
  | some a =>
    if a.status ≠ "approved" then (.notFound, db)
    else
      match db.likes.find? (likePred uid aid) with
      | some _ =>
        (.ok false (max 0 (a.likes_count - 1)),
          updateArtwork { db with likes := db.likes.eraseP (likePred uid aid) }
            aid decLike)
      | none =>
        (.ok true (a.likes_count + 1),
          updateArtwork
            { db with likes := db.likes ++
                [{ id := db.nextLikeId, user_id := uid, artwork_id := aid
                   timestamp := now }]
                      nextLikeId := db.nextLikeId + 1 }
            aid incLike)

/-- The distinct responses of the `approve` and `reject` moderation
handlers (`moderator_required` supplies the 403). -/
inductive ModResult where
  | forbidden
  | notFound
  | notPending
  | ok
  deriving Repr, DecidableEq

/-- HTTP status code of each moderation response. -/
def ModResult.statusCode : ModResult → Nat
  | .forbidden => 403
  | .notFound => 404
  | .notPending => 400
  | .ok => 200

/-- `approve` (`PUT /api/admin/approve/<id>`), invoked by principal `mid`:
requires moderator role; 400 `"Not pending"` unless the artwork's status is
`"pending"`; on success sets status to `"approved"`, stamps
`approval_date`, and appends a `Moderation(action="approved")` row
(its `feedback` column stays `None`). -/
def approve (db : DB) (mid aid : Nat) (now : Nat) : ModResult × DB :=
  if ¬ isModerator db mid then (.forbidden, db)
  else
    match findArtwork db aid with
    | none => (.notFound, db)
    | some a =>
      if a.status ≠ "pending" then (.notPending, db)
      else
        let db' := updateArtwork db aid (approveArt now)
        (.ok,
          { db' with
              moderations := db'.moderations ++
                [{ id := db.nextModerationId, artwork_id := aid
                   moderator_id := mid, action := "approved", feedback := none
                   timestamp := now }]
              nextModerationId := db.nextModerationId + 1 })

/-- `reject` (`PUT /api/admin/reject/<id>`), invoked by principal `mid` with
the request body's `feedback` string (Python `get("feedback", "")`, so the
default is `""`): requires moderator role; 400 `"Not pending"` unless the
artwork's status is `"pending"`; on success sets status to `"rejected"`
(leaving `approval_date` untouched) and appends a
`Moderation(action="rejected", feedback=feedback)` row. -/
def reject (db : DB) (mid aid : Nat) (feedback : String) (now : Nat) :
    ModResult × DB :=
  if ¬ isModerator db mid then (.forbidden, db)
  else
    match findArtwork db aid with
    | none => (.notFound, db)
    | some a =>
      if a.status ≠ "pending" then (.notPending, db)
      else
        let db' := updateArtwork db aid rejectArt
        (.ok,
          { db' with
              moderations := db'.moderations ++
                [{ id := db.nextModerationId, artwork_id := aid
                   moderator_id := mid, action := "rejected"
                   feedback := some feedback, timestamp := now }]
              nextModerationId := db.nextModerationId + 1 })

/-- Insert a comment into a list kept sorted by `timestamp` descending
(ties keep the existing order, as a stable sort does). -/
def insertByTsDesc (c : Comment) : List Comment → List Comment
  | [] => [c]
  | d :: t => if d.timestamp < c.timestamp then c :: d :: t
              else d :: insertByTsDesc c t

/-- Stable sort of comments by `timestamp` descending, the
`order_by(Comment.timestamp.desc())` of `get_comments`. -/
def sortByTsDesc : List Comment → List Comment
  | [] => []
  | c :: t => insertByTsDesc c (sortByTsDesc t)

/-- The distinct responses of `get_comments`; the success payload is the
list of comment rows rendered in the JSON. -/
inductive GetCommentsResult where
  | notFound
  | ok (comments : List Comment)
  deriving Repr, DecidableEq

/-- HTTP status code of each `get_comments` response. -/
def GetCommentsResult.statusCode : GetCommentsResult → Nat
  | .notFound => 404
  | .ok _ => 200

/-- `get_comments` (`GET /api/comments/<artwork_id>`): 404 unless the
artwork exists and is approved; otherwise the comments of that artwork with
`is_flagged == False`, ordered by timestamp descending. Read-only. -/
def get_comments (db : DB) (aid : Nat) : GetCommentsResult :=
  match findArtwork db aid with
  | none => .notFound
  | some a =>
    if a.status ≠ "approved" then .notFound
    else
      .ok (sortByTsDesc
        (db.comments.filter (fun c => c.artwork_id = aid && c.is_flagged = false)))

/-- The distinct responses of `add_comment`. -/
inductive AddCommentResult where
  | badRequest
  | notFound
  | created (c : Comment)
  deriving Repr, DecidableEq

/-- HTTP status code of each `add_comment` response. -/
def AddCommentResult.statusCode : AddCommentResult → Nat
  | .badRequest => 400
  | .notFound => 404
  | .created _ => 201

/-- `add_comment` (`POST /api/comments`) for the authenticated user `uid`:
400 when `artwork_id` or `content` is falsy (`0` and `""` respectively);
404 unless the artwork exists and is approved; otherwise the comment row is
inserted with `is_flagged` decided by the static blocklist, and returned. -/
def add_comment (db : DB) (uid aid : Nat) (content : String) (now : Nat) :
    AddCommentResult × DB :=
  if aid = 0 || content.isEmpty then (.badRequest, db)
  else
    match findArtwork db aid with
    | none => (.notFound, db)
    | some a =>
      if a.status ≠ "approved" then (.notFound, db)
      else
        let c : Comment :=
          { id := db.nextCommentId, user_id := uid, artwork_id := aid
            content := content, timestamp := now
            is_flagged := containsBlocked content }
        (.created c,
          { db with comments := db.comments ++ [c]
                    nextCommentId := db.nextCommentId + 1 })

/-! ## Derived notions used by the specification's properties -/

/-- The denormalized-counter invariant of the spec: every artwork's
`likes_count` equals the number of `Like` rows referencing it. -/
def likesConsistent (db : DB) : Prop :=
  ∀ a ∈ db.artworks,
    a.likes_count = (db.likes.countP (fun l => l.artwork_id = a.id) : Int)

instance (db : DB) : Decidable (likesConsistent db) := by
  unfold likesConsistent; infer_instance

/-- Run a sequence of like-toggle requests `(uid, aid, now)` one after the
other (the sequential execution of the claim). -/
def applyToggles (db : DB) : List (Nat × Nat × Nat) → DB
  | [] => db
  | (uid, aid, now) :: t => applyToggles (toggle_like db uid aid now).2 t

/-- Run `n` repeated fetches of artwork `aid` (the database after `n`
`get_artwork` requests). -/
def fetchN (aid : Nat) : Nat → DB → DB
  | 0, db => db
  | n + 1, db => fetchN aid n (get_artwork db aid).2

/-! ## Concrete fixtures (for witnesses and counterexamples) -/

/-- The default admin inserted by `seed_db`. -/
def adminUser : User :=
  { id := 1, full_name := "ARTGRID Admin", email := "admin@my.uopeople.edu"
    password_hash := generate_password_hash "admin123"
    dob_hash := hash_dob "1990-01-01", student_id := "ADMIN001"
    year_of_study := "Graduate", profile_image_url := none
    verification_status := "verified", role := "admin", created_at := 0 }

/-- The database produced by `seed_db()` on first start: empty tables plus
the default admin. -/
def seededDB : DB := { DB.empty with users := [adminUser], nextUserId := 2 }

/-- A verified student row (as `register` creates). -/
def studentUser : User :=
  { id := 2, full_name := "Alice", email := "alice@my.uopeople.edu"
    password_hash := generate_password_hash "pw"
    dob_hash := hash_dob "2000-01-01", student_id := "S001"
    year_of_study := "2", profile_image_url := none
    verification_status := "verified", role := "student", created_at := 1 }

/-- A pending artwork owned by the student. -/
def artPending : Artwork :=
  { id := 1, user_id := 2, status := "pending", title := "Dawn"
    description := "", medium := "Oil Paint", category := "Painting"
    file_url := "http://img/1", thumbnail_url := "http://img/1", tags := ""
    creation_date := none, submission_date := 2, approval_date := none
    likes_count := 0, views_count := 0, is_featured := false }

/-- An approved artwork owned by the student. -/
def artApproved : Artwork :=
  { artPending with
      id := 2, status := "approved", title := "Dusk", approval_date := some 3 }

/-- A database with the admin, a student, one pending and one approved
artwork, and no engagement rows. -/
def dbFix : DB :=
  { DB.empty with
      users := [adminUser, studentUser]
      artworks := [artPending, artApproved]
      nextUserId := 3, nextArtworkId := 3 }

/-- `dbFix` after the admin (user 1) has liked the approved artwork
(artwork 2), with the counter consistent. -/
def dbLiked : DB :=
  { dbFix with
      artworks := [artPending, { artApproved with likes_count := 1 }]
      likes := [{ id := 1, user_id := 1, artwork_id := 2, timestamp := 4 }]
      nextLikeId := 2 }

/-- A registration request with an institutional e-mail. -/
def aliceReq : RegisterReq :=
  { full_name := "Alice", email := "alice@my.uopeople.edu", password := "pw"
    dob := "2000-01-01", student_id := "S001", year_of_study := "2" }

/-- A registration request with a non-institutional e-mail. -/
def gmailReq : RegisterReq := { aliceReq with email := "alice@gmail.com" }

/-- A well-formed upload form. -/
def uploadReq : UploadReq :=
  { file := some "dawn.png", title := some "Dawn", description := ""
    medium := some "Oil Paint", category := some "Painting", tags := ""
    creation_date := none }

/-- The database after Alice has registered on the freshly seeded
database (a run of the example scenario's first step). -/
def dbAlice : DB := (register seededDB aliceReq 1).2

/-! ## General lemmas about the embedding -/

theorem updateArtwork_likes (db : DB) (aid : Nat) (f : Artwork → Artwork) :
    (updateArtwork db aid f).likes = db.likes := rfl

theorem updateArtwork_users (db : DB) (aid : Nat) (f : Artwork → Artwork) :
    (updateArtwork db aid f).users = db.users := rfl

theorem updateArtwork_comments (db : DB) (aid : Nat) (f : Artwork → Artwork) :
    (updateArtwork db aid f).comments = db.comments := rfl

theorem updateArtwork_moderations (db : DB) (aid : Nat) (f : Artwork → Artwork) :
    (updateArtwork db aid f).moderations = db.moderations := rfl

/-- Updating by primary key only rewrites rows of that key: looking any id
up afterwards is looking it up before and applying the conditional update. -/
theorem findArtwork_updateArtwork (db : DB) (aid aid' : Nat)
    (f : Artwork → Artwork) (hf : ∀ a, (f a).id = a.id) :
    findArtwork (updateArtwork db aid f) aid' =
      (findArtwork db aid').map (fun a => if a.id = aid then f a else a) := by
  unfold findArtwork updateArtwork
  rw [List.find?_map]
  have hp : ((fun a : Artwork => decide (a.id = aid')) ∘
      (fun a => if a.id = aid then f a else a)) =
      (fun a : Artwork => decide (a.id = aid')) := by
    funext a
    by_cases h : a.id = aid <;> simp [h, hf]
  rw [hp]

/-- Looking the updated key up returns the updated row. -/
theorem findArtwork_updateArtwork_self {db : DB} {aid : Nat} {a : Artwork}
    (f : Artwork → Artwork) (hf : ∀ x, (f x).id = x.id)
    (ha : findArtwork db aid = some a) :
    findArtwork (updateArtwork db aid f) aid = some (f a) := by
  rw [findArtwork_updateArtwork db aid aid f hf, ha]
  have : a.id = aid := by simpa using List.find?_some ha
  simp [this]

/-- Looking any other key up is unaffected by the update. -/
theorem findArtwork_updateArtwork_ne {db : DB} {aid aid' : Nat}
    (f : Artwork → Artwork) (hf : ∀ x, (f x).id = x.id) (h : aid' ≠ aid) :
    findArtwork (updateArtwork db aid f) aid' = findArtwork db aid' := by
  rw [findArtwork_updateArtwork db aid aid' f hf]
  cases hfind : findArtwork db aid' with
  | none => rfl
  | some a =>
    have : a.id = aid' := by simpa using List.find?_some hfind
    simp [this, h]

/-- Erasing one `p`-element changes any count by that element's
contribution: there is a `p`-element `e` with
`countP q l = countP q (l.eraseP p) + (if q e then 1 else 0)`. -/
theorem countP_eraseP_of_exists {α : Type} (p q : α → Bool) (l : List α)
    (h : ∃ x ∈ l, p x = true) :
    ∃ e, p e = true ∧
      l.countP q = (l.eraseP p).countP q + (if q e then 1 else 0) := by
  obtain ⟨x, hx, hpx⟩ := h
  obtain ⟨e, l₁, l₂, _, hpe, hl, herase⟩ := List.exists_of_eraseP hx hpx
  refine ⟨e, hpe, ?_⟩
  subst hl
  rw [herase, List.countP_append, List.countP_append, List.countP_cons]
  omega

/-- Membership in the descending insertion. -/
theorem mem_insertByTsDesc {x c : Comment} {l : List Comment} :
    x ∈ insertByTsDesc c l ↔ x = c ∨ x ∈ l := by
  induction l with
  | nil => simp [insertByTsDesc]
  | cons d t ih =>
    by_cases h : d.timestamp < c.timestamp
    · simp [insertByTsDesc, h]
    · simp [insertByTsDesc, h, ih]
      tauto

/-- Sorting by timestamp keeps exactly the same comments. -/
theorem mem_sortByTsDesc {x : Comment} {l : List Comment} :
    x ∈ sortByTsDesc l ↔ x ∈ l := by
  induction l with
  | nil => simp [sortByTsDesc]
  | cons c t ih => simp [sortByTsDesc, mem_insertByTsDesc, ih]

theorem decLike_id (a : Artwork) : (decLike a).id = a.id := rfl

theorem incLike_id (a : Artwork) : (incLike a).id = a.id := rfl

theorem incViews_id (a : Artwork) : (incViews a).id = a.id := rfl

theorem approveArt_id (now : Nat) (a : Artwork) : (approveArt now a).id = a.id := rfl

theorem rejectArt_id (a : Artwork) : (rejectArt a).id = a.id := rfl

/-! ### Branch equations of `toggle_like` -/

theorem toggle_like_no_artwork {db : DB} {aid : Nat} (uid now : Nat)
    (ha : findArtwork db aid = none) :
    toggle_like db uid aid now = (.notFound, db) := by
  simp [toggle_like, ha]

theorem toggle_like_not_approved {db : DB} {aid : Nat} (uid now : Nat)
    {a : Artwork} (ha : findArtwork db aid = some a)
    (hs : a.status ≠ "approved") :
    toggle_like db uid aid now = (.notFound, db) := by
  simp [toggle_like, ha, hs]

theorem toggle_like_delete {db : DB} {uid aid : Nat} (now : Nat) {a : Artwork}
    {lk : Like} (ha : findArtwork db aid = some a) (hs : a.status = "approved")
    (hfl : db.likes.find? (likePred uid aid) = some lk) :
    toggle_like db uid aid now =
      (.ok false (max 0 (a.likes_count - 1)),
        updateArtwork { db with likes := db.likes.eraseP (likePred uid aid) }
          aid decLike) := by
  simp [toggle_like, ha, hs, hfl]

theorem toggle_like_insert {db : DB} {uid aid : Nat} (now : Nat) {a : Artwork}
    (ha : findArtwork db aid = some a) (hs : a.status = "approved")
    (hfl : db.likes.find? (likePred uid aid) = none) :
    toggle_like db uid aid now =
      (.ok true (a.likes_count + 1),
        updateArtwork
          { db with likes := db.likes ++ [⟨db.nextLikeId, uid, aid, now⟩]
                    nextLikeId := db.nextLikeId + 1 }
          aid incLike) := by
  simp [toggle_like, ha, hs, hfl]

/-- One like-toggle request preserves the counter invariant, whatever its
arguments and outcome. -/
theorem likesConsistent_toggle (db : DB) (uid aid now : Nat)
    (h : likesConsistent db) :
    likesConsistent (toggle_like db uid aid now).2 := by
  cases hfa : findArtwork db aid with
  | none => rw [toggle_like_no_artwork uid now hfa]; exact h
  | some a =>
    by_cases hs : a.status = "approved"
    · cases hfl : db.likes.find? (likePred uid aid) with
      | some lk =>
        rw [toggle_like_delete now hfa hs hfl]
        intro a' ha'
        simp only [updateArtwork, List.mem_map] at ha'
        obtain ⟨x, hx, rfl⟩ := ha'
        have hcount := h x hx
        have hmem := List.mem_of_find?_eq_some hfl
        have hplk := List.find?_some hfl
        obtain ⟨e, hpe, hcnt⟩ := countP_eraseP_of_exists (likePred uid aid)
          (fun l => l.artwork_id = x.id) db.likes ⟨lk, hmem, hplk⟩
        have heaid : e.artwork_id = aid := by
          simp only [likePred, Bool.and_eq_true, decide_eq_true_eq] at hpe
          exact hpe.2
        by_cases hxid : x.id = aid
        · subst hxid
          rw [if_pos rfl]
          simp only [heaid, decide_eq_true_eq, eq_self_iff_true, if_true] at hcnt
          simp only [decLike, updateArtwork_likes]
          omega
        · rw [if_neg hxid]
          have hne : ¬ (e.artwork_id = x.id) := by
            rw [heaid]; exact fun hc => hxid hc.symm
          simp only [decide_eq_true_eq, if_neg hne, Nat.add_zero] at hcnt
          simp only [updateArtwork_likes]
          omega
      | none =>
        rw [toggle_like_insert now hfa hs hfl]
        intro a' ha'
        simp only [updateArtwork, List.mem_map] at ha'
        obtain ⟨x, hx, rfl⟩ := ha'
        have hcount := h x hx
        by_cases hxid : x.id = aid
        · subst hxid
          rw [if_pos rfl]
          simp only [incLike, updateArtwork_likes, List.countP_append,
            List.countP_cons, List.countP_nil, decide_eq_true_eq,
            eq_self_iff_true, if_true]
          omega
        · rw [if_neg hxid]
          have hne : ¬ ((aid : Nat) = x.id) := fun hc => hxid hc.symm
          simp only [updateArtwork_likes, List.countP_append,
            List.countP_cons, List.countP_nil, decide_eq_true_eq, if_neg hne]
          omega
    · rw [toggle_like_not_approved uid now hfa hs]; exact h

/-! ### Branch equations of `approve` and `reject` -/

theorem findArtwork_set_moderations (db : DB) (m : List Moderation) (n aid : Nat) :
    findArtwork { db with moderations := m, nextModerationId := n } aid =
      findArtwork db aid := rfl

theorem findArtwork_set_likes (db : DB) (l : List Like) (n aid : Nat) :
    findArtwork { db with likes := l, nextLikeId := n } aid =
      findArtwork db aid := rfl

theorem findArtwork_set_comments (db : DB) (c : List Comment) (n aid : Nat) :
    findArtwork { db with comments := c, nextCommentId := n } aid =
      findArtwork db aid := rfl

theorem approve_not_moderator {db : DB} {mid : Nat} (aid now : Nat)
    (hm : isModerator db mid = false) :
    approve db mid aid now = (.forbidden, db) := by
  simp [approve, hm]

theorem approve_no_artwork {db : DB} {mid aid : Nat} (now : Nat)
    (hm : isModerator db mid = true) (ha : findArtwork db aid = none) :
    approve db mid aid now = (.notFound, db) := by
  simp [approve, hm, ha]

theorem approve_not_pending {db : DB} {mid aid : Nat} (now : Nat)
    {a : Artwork} (hm : isModerator db mid = true)
    (ha : findArtwork db aid = some a) (hs : a.status ≠ "pending") :
    approve db mid aid now = (.notPending, db) := by
  simp [approve, hm, ha, hs]

theorem approve_pending {db : DB} {mid aid : Nat} (now : Nat) {a : Artwork}
    (hm : isModerator db mid = true) (ha : findArtwork db aid = some a)
    (hs : a.status = "pending") :
    approve db mid aid now =
      (.ok,
        { updateArtwork db aid (approveArt now) with
            moderations := db.moderations ++
              [⟨db.nextModerationId, aid, mid, "approved", none, now⟩]
            nextModerationId := db.nextModerationId + 1 }) := by
  simp [approve, hm, ha, hs, updateArtwork_moderations]

theorem reject_not_moderator {db : DB} {mid : Nat} (aid : Nat) (fb : String)
    (now : Nat) (hm : isModerator db mid = false) :
    reject db mid aid fb now = (.forbidden, db) := by
  simp [reject, hm]

theorem reject_no_artwork {db : DB} {mid aid : Nat} (fb : String) (now : Nat)
    (hm : isModerator db mid = true) (ha : findArtwork db aid = none) :
    reject db mid aid fb now = (.notFound, db) := by
  simp [reject, hm, ha]

theorem reject_not_pending {db : DB} {mid aid : Nat} (fb : String) (now : Nat)
    {a : Artwork} (hm : isModerator db mid = true)
    (ha : findArtwork db aid = some a) (hs : a.status ≠ "pending") :
    reject db mid aid fb now = (.notPending, db) := by
  simp [reject, hm, ha, hs]

theorem reject_pending {db : DB} {mid aid : Nat} (fb : String) (now : Nat)
    {a : Artwork} (hm : isModerator db mid = true)
    (ha : findArtwork db aid = some a) (hs : a.status = "pending") :
    reject db mid aid fb now =
      (.ok,
        { updateArtwork db aid rejectArt with
            moderations := db.moderations ++
              [⟨db.nextModerationId, aid, mid, "rejected", some fb, now⟩]
            nextModerationId := db.nextModerationId + 1 }) := by
  simp [reject, hm, ha, hs, updateArtwork_moderations]

/-- A transition request on a non-pending artwork always errors and leaves
the database untouched, whoever sends it. -/
theorem approve_nonpending_noop {db : DB} {aid : Nat} (mid now : Nat)
    {a : Artwork} (ha : findArtwork db aid = some a)
    (hs : a.status ≠ "pending") :
    (approve db mid aid now).1 ≠ .ok ∧ (approve db mid aid now).2 = db := by
  by_cases hm : isModerator db mid = true
  · rw [approve_not_pending now hm ha hs]
    exact ⟨by simp, rfl⟩
  · rw [approve_not_moderator aid now (by simpa using hm)]
    exact ⟨by simp, rfl⟩

/-- Rejection counterpart of `approve_nonpending_noop`. -/
theorem reject_nonpending_noop {db : DB} {aid : Nat} (mid : Nat) (fb : String)
    (now : Nat) {a : Artwork} (ha : findArtwork db aid = some a)
    (hs : a.status ≠ "pending") :
    (reject db mid aid fb now).1 ≠ .ok ∧ (reject db mid aid fb now).2 = db := by
  by_cases hm : isModerator db mid = true
  · rw [reject_not_pending fb now hm ha hs]
    exact ⟨by simp, rfl⟩
  · rw [reject_not_moderator aid fb now (by simpa using hm)]
    exact ⟨by simp, rfl⟩

/-! ### Branch equations of `register`, `get_artwork`, `add_comment`,
`get_comments`, and inversion of successful `register`/`upload_artwork` -/

theorem register_invalid_email {db : DB} {r : RegisterReq} (now : Nat)
    (h : validate_uopeople_email r.email = false) :
    register db r now = (.invalidEmail, db) := by
  simp [register, h]

theorem register_email_taken {db : DB} {r : RegisterReq} (now : Nat)
    (hv : validate_uopeople_email r.email = true)
    (h : db.users.any (fun u => u.email = r.email) = true) :
    register db r now = (.emailTaken, db) := by
  simp [register, hv, h]

/-- Inversion of a successful registration: the only change is one appended
user row, and that row is a verified student with the request's e-mail. -/
theorem register_success {db : DB} {r : RegisterReq} {now uid : Nat} {db₁ : DB}
    (h : register db r now = (.success uid, db₁)) :
    uid = db.nextUserId ∧ validate_uopeople_email r.email = true ∧
    db₁.nextUserId = db.nextUserId + 1 ∧
    ∃ u : User, db₁.users = db.users ++ [u] ∧ u.id = db.nextUserId ∧
      u.verification_status = "verified" ∧ u.email = r.email ∧
      u.role = "student" := by
  unfold register at h
  split_ifs at h with h1 h2 h3 <;> cases h
  refine ⟨rfl, h1, rfl, ?_⟩
  exact ⟨_, rfl, rfl, by simp [registeredUser, h1], rfl, rfl⟩

/-- A well-formed upload by a logged-in user succeeds and appends exactly
the row `uploadedArtwork ...`. -/
theorem upload_artwork_success {db : DB} {uid : Nat} {r : UploadReq}
    {fn : String} (url : String) (now : Nat) (user : User)
    (hu : db.users.find? (fun u => u.id = uid) = some user)
    (hf : r.file = some fn) (hemp : fn.isEmpty = false)
    (hall : allowed_file fn = true) (ht : formFalsy r.title = false)
    (hm : formFalsy r.medium = false) (hc : formFalsy r.category = false) :
    upload_artwork db uid r (some url) now =
      (.created db.nextArtworkId (uploadedArtwork db user r url now).status,
        { db with artworks := db.artworks ++ [uploadedArtwork db user r url now]
                  nextArtworkId := db.nextArtworkId + 1 }) := by
  simp [upload_artwork, hu, hf, hemp, hall, ht, hm, hc, uploadedArtwork]

theorem get_artwork_ok {db : DB} {aid : Nat} {a : Artwork}
    (ha : findArtwork db aid = some a) (hs : a.status = "approved") :
    get_artwork db aid = (.ok (incViews a), updateArtwork db aid incViews) := by
  simp [get_artwork, ha, hs]

theorem get_artwork_not_approved {db : DB} {aid : Nat} {a : Artwork}
    (ha : findArtwork db aid = some a) (hs : a.status ≠ "approved") :
    get_artwork db aid = (.notFound, db) := by
  simp [get_artwork, ha, hs]

theorem add_comment_created {db : DB} (uid : Nat) {aid : Nat}
    {content : String} (now : Nat) {a : Artwork}
    (hid : aid ≠ 0) (hc : content.isEmpty = false)
    (ha : findArtwork db aid = some a) (hs : a.status = "approved") :
    add_comment db uid aid content now =
      (.created ⟨db.nextCommentId, uid, aid, content, now, containsBlocked content⟩,
        { db with
            comments := db.comments ++
              [⟨db.nextCommentId, uid, aid, content, now, containsBlocked content⟩]
            nextCommentId := db.nextCommentId + 1 }) := by
  simp [add_comment, hid, hc, ha, hs]

theorem get_comments_ok {db : DB} {aid : Nat} {a : Artwork}
    (ha : findArtwork db aid = some a) (hs : a.status = "approved") :
    get_comments db aid =
      .ok (sortByTsDesc
        (db.comments.filter (fun c => c.artwork_id = aid && c.is_flagged = false))) := by
  simp [get_comments, ha, hs]

/-! ## The specification's claims -/

/-- C6: if a `User` row with the request's e-mail already exists, a second
registration with that e-mail answers HTTP 400 and leaves the database —
in particular the user table — unchanged. -/
theorem register_duplicate_email_rejected (db : DB) (r : RegisterReq)
    (now : Nat) (h : ∃ u ∈ db.users, u.email = r.email) :
    (register db r now).1.statusCode = 400 ∧ (register db r now).2 = db := by
  by_cases hv : validate_uopeople_email r.email = true
  · have hany : db.users.any (fun u => u.email = r.email) = true := by
      obtain ⟨u, hu, he⟩ := h
      exact List.any_eq_true.mpr ⟨u, hu, by simp [he]⟩
    rw [register_email_taken now hv hany]
    exact ⟨rfl, rfl⟩
  · rw [register_invalid_email now (by simpa using hv)]
    exact ⟨rfl, rfl⟩

/-- Witness for C6: re-registering Alice's e-mail on a database that
already holds her row is answered 400 and changes nothing. -/
theorem register_duplicate_email_rejected_witness :
    (∃ u ∈ dbAlice.users, u.email = aliceReq.email) ∧
    (register dbAlice aliceReq 7).1.statusCode = 400 ∧
    (register dbAlice aliceReq 7).2 = dbAlice :=
  ⟨by decide, register_duplicate_email_rejected dbAlice aliceReq 7 (by decide)⟩

/-- C7: a registration whose e-mail fails the institutional pattern is
answered HTTP 400 with no row created, and a successful registration
implies the e-mail matched the pattern. -/
theorem register_requires_institutional_email (db : DB) (r : RegisterReq)
    (now : Nat) :
    (validate_uopeople_email r.email = false →
      (register db r now).1.statusCode = 400 ∧ (register db r now).2 = db) ∧
    (∀ uid, (register db r now).1 = .success uid →
      validate_uopeople_email r.email = true) := by
  constructor
  · intro hv
    rw [register_invalid_email now hv]
    exact ⟨rfl, rfl⟩
  · intro uid hsucc
    by_cases hv : validate_uopeople_email r.email = true
    · exact hv
    · rw [register_invalid_email now (by simpa using hv)] at hsucc
      cases hsucc

/-- Witness for C7: registering with a Gmail address on the seeded
database fails with 400 and leaves the database unchanged. -/
theorem register_requires_institutional_email_witness :
    validate_uopeople_email gmailReq.email = false ∧
    (register seededDB gmailReq 5).1.statusCode = 400 ∧
    (register seededDB gmailReq 5).2 = seededDB :=
  ⟨by decide,
    (register_requires_institutional_email seededDB gmailReq 5).1 (by decide)⟩

/-- C10: every user the registration endpoint creates is stored with
`verification_status = "verified"`: the pattern check that gates the
insert is the same check that picks the status, so `"pending"` is
unreachable through `register`. -/
theorem registered_user_always_verified (db : DB) (r : RegisterReq)
    (now uid : Nat) (db₁ : DB) (h : register db r now = (.success uid, db₁)) :
    ∃ u : User, db₁.users = db.users ++ [u] ∧ u.id = uid ∧
      u.verification_status = "verified" := by
  obtain ⟨huid, hv, hnext, u, husers, hid, hver, _, _⟩ := register_success h
  subst huid
  exact ⟨u, husers, hid, hver⟩

/-- Witness for C10: Alice's registration on the seeded database inserts
one user row with `verification_status = "verified"`. -/
theorem registered_user_always_verified_witness :
    ∃ u : User, dbAlice.users = seededDB.users ++ [u] ∧ u.id = 2 ∧
      u.verification_status = "verified" :=
  registered_user_always_verified seededDB aliceReq 1 2 dbAlice (by decide)

/-- C1: starting from a state with no `Like` rows and every artwork's
`likes_count` at 0, after any sequence of sequentially executed like-toggle
operations every artwork's `likes_count` equals the number of `Like` rows
referencing it. -/
theorem toggle_sequences_keep_likes_count_consistent (db : DB)
    (hl : db.likes = []) (hc : ∀ a ∈ db.artworks, a.likes_count = 0)
    (ops : List (Nat × Nat × Nat)) :
    likesConsistent (applyToggles db ops) := by
  have h0 : likesConsistent db := by
    intro a ha
    rw [hl]
    simpa using hc a ha
  clear hl hc
  induction ops generalizing db with
  | nil => exact h0
  | cons op t ih =>
    obtain ⟨uid, aid, now⟩ := op
    exact ih (toggle_like db uid aid now).2 (likesConsistent_toggle db uid aid now h0)

/-- Witness for C1: a concrete three-toggle run on the fixture database
keeps every artwork's counter equal to its number of `Like` rows. -/
theorem toggle_sequences_keep_likes_count_consistent_witness :
    dbFix.likes = [] ∧ (∀ a ∈ dbFix.artworks, a.likes_count = 0) ∧
    likesConsistent (applyToggles dbFix [(1, 2, 5), (2, 2, 6), (1, 2, 7)]) :=
  ⟨rfl, by decide,
    toggle_sequences_keep_likes_count_consistent dbFix rfl (by decide)
      [(1, 2, 5), (2, 2, 6), (1, 2, 7)]⟩

/-- C2: status only moves `pending → approved` or `pending → rejected`;
a transition request on a non-pending artwork errors and changes nothing,
and after one successful transition every further approve or reject on the
same artwork errors and changes nothing — so no artwork undergoes both
transitions, nor the same transition twice. -/
theorem status_transitions_only_from_pending (db : DB) (mid aid now : Nat)
    (fb : String) {a : Artwork} (ha : findArtwork db aid = some a) :
    (a.status ≠ "pending" →
      ((approve db mid aid now).1 ≠ .ok ∧ (approve db mid aid now).2 = db ∧
       (reject db mid aid fb now).1 ≠ .ok ∧ (reject db mid aid fb now).2 = db)) ∧
    ((approve db mid aid now).1 = .ok →
      (findArtwork (approve db mid aid now).2 aid = some (approveArt now a) ∧
       ∀ mid' now' fb',
         (approve (approve db mid aid now).2 mid' aid now').1 ≠ .ok ∧
         (approve (approve db mid aid now).2 mid' aid now').2 =
           (approve db mid aid now).2 ∧
         (reject (approve db mid aid now).2 mid' aid fb' now').1 ≠ .ok ∧
         (reject (approve db mid aid now).2 mid' aid fb' now').2 =
           (approve db mid aid now).2)) ∧
    ((reject db mid aid fb now).1 = .ok →
      (findArtwork (reject db mid aid fb now).2 aid = some (rejectArt a) ∧
       ∀ mid' now' fb',
         (approve (reject db mid aid fb now).2 mid' aid now').1 ≠ .ok ∧
         (approve (reject db mid aid fb now).2 mid' aid now').2 =
           (reject db mid aid fb now).2 ∧
         (reject (reject db mid aid fb now).2 mid' aid fb' now').1 ≠ .ok ∧
         (reject (reject db mid aid fb now).2 mid' aid fb' now').2 =
           (reject db mid aid fb now).2)) := by
  refine ⟨?_, ?_, ?_⟩
  · intro hs
    obtain ⟨h1, h2⟩ := approve_nonpending_noop mid now ha hs
    obtain ⟨h3, h4⟩ := reject_nonpending_noop mid fb now ha hs
    exact ⟨h1, h2, h3, h4⟩
  · intro hok
    by_cases hm : isModerator db mid = true
    · by_cases hp : a.status = "pending"
      · have hfind : findArtwork (approve db mid aid now).2 aid =
            some (approveArt now a) := by
          rw [approve_pending now hm ha hp]
          exact findArtwork_updateArtwork_self (approveArt now) (fun _ => rfl) ha
        refine ⟨hfind, fun mid' now' fb' => ?_⟩
        have hns : (approveArt now a).status ≠ "pending" := by
          simp [approveArt]
        obtain ⟨h1, h2⟩ := approve_nonpending_noop mid' now' hfind hns
        obtain ⟨h3, h4⟩ := reject_nonpending_noop mid' fb' now' hfind hns
        exact ⟨h1, h2, h3, h4⟩
      · rw [approve_not_pending now hm ha hp] at hok
        cases hok
    · rw [approve_not_moderator aid now (by simpa using hm)] at hok
      cases hok
  · intro hok
    by_cases hm : isModerator db mid = true
    · by_cases hp : a.status = "pending"
      · have hfind : findArtwork (reject db mid aid fb now).2 aid =
            some (rejectArt a) := by
          rw [reject_pending fb now hm ha hp]
          exact findArtwork_updateArtwork_self rejectArt (fun _ => rfl) ha
        refine ⟨hfind, fun mid' now' fb' => ?_⟩
        have hns : (rejectArt a).status ≠ "pending" := by
          simp [rejectArt]
        obtain ⟨h1, h2⟩ := approve_nonpending_noop mid' now' hfind hns
        obtain ⟨h3, h4⟩ := reject_nonpending_noop mid' fb' now' hfind hns
        exact ⟨h1, h2, h3, h4⟩
      · rw [reject_not_pending fb now hm ha hp] at hok
        cases hok
    · rw [reject_not_moderator aid fb now (by simpa using hm)] at hok
      cases hok

/-- Witness for C2: on the fixture database the admin approves the pending
artwork; a second approve and a reject by the admin both fail and leave
the database exactly as after the first approval. -/
theorem status_transitions_only_from_pending_witness :
    (approve dbFix 1 1 9).1 = .ok ∧
    (approve (approve dbFix 1 1 9).2 1 1 10).1 ≠ .ok ∧
    (approve (approve dbFix 1 1 9).2 1 1 10).2 = (approve dbFix 1 1 9).2 ∧
    (reject (approve dbFix 1 1 9).2 1 1 "no" 10).1 ≠ .ok ∧
    (reject (approve dbFix 1 1 9).2 1 1 "no" 10).2 = (approve dbFix 1 1 9).2 := by
  have h := (status_transitions_only_from_pending dbFix 1 1 9 "no"
    (by decide : findArtwork dbFix 1 = some artPending)).2.1
    (by decide : (approve dbFix 1 1 9).1 = .ok)
  obtain ⟨-, h2⟩ := h
  obtain ⟨h3, h4, h5, h6⟩ := h2 1 10 "no"
  exact ⟨by decide, h3, h4, h5, h6⟩

/-- C5: a successful transition on a pending artwork appends exactly one
`Moderation` record whose `action` names the transition and whose
`moderator_id` is the acting moderator; approve additionally stamps the
artwork's `approval_date` with the current time, and reject stores the
request's feedback string in the record. -/
theorem moderation_log_per_transition (db : DB) (mid aid now : Nat)
    (fb : String) {a : Artwork} (hm : isModerator db mid = true)
    (ha : findArtwork db aid = some a) (hp : a.status = "pending") :
    ((approve db mid aid now).1 = .ok ∧
     (approve db mid aid now).2.moderations = db.moderations ++
       [⟨db.nextModerationId, aid, mid, "approved", none, now⟩] ∧
     findArtwork (approve db mid aid now).2 aid =
       some { a with status := "approved", approval_date := some now }) ∧
    ((reject db mid aid fb now).1 = .ok ∧
     (reject db mid aid fb now).2.moderations = db.moderations ++
       [⟨db.nextModerationId, aid, mid, "rejected", some fb, now⟩] ∧
     findArtwork (reject db mid aid fb now).2 aid =
       some { a with status := "rejected" }) := by
  constructor
  · rw [approve_pending now hm ha hp]
    exact ⟨rfl, rfl,
      findArtwork_updateArtwork_self (approveArt now) (fun _ => rfl) ha⟩
  · rw [reject_pending fb now hm ha hp]
    exact ⟨rfl, rfl,
      findArtwork_updateArtwork_self rejectArt (fun _ => rfl) ha⟩

/-- Witness for C5: the admin rejecting the fixture's pending artwork with
feedback `"fix"` appends exactly the expected moderation record. -/
theorem moderation_log_per_transition_witness :
    (reject dbFix 1 1 "fix" 9).1 = .ok ∧
    (reject dbFix 1 1 "fix" 9).2.moderations =
      dbFix.moderations ++ [⟨1, 1, 1, "rejected", some "fix", 9⟩] ∧
    findArtwork (reject dbFix 1 1 "fix" 9).2 1 =
      some { artPending with status := "rejected" } :=
  (moderation_log_per_transition dbFix 1 1 9 "fix" (by decide)
    (by decide : findArtwork dbFix 1 = some artPending) (by decide)).2

/-- C3 counterexample: after registering with an institutional e-mail
(user id 2 on the seeded database), the uploaded artwork is created with
status `"approved"` — not `"pending"` — with no approval date and no
moderation log entry, before any moderator acted. -/
theorem registered_upload_not_pending_cex :
    (register seededDB aliceReq 1).1 = .success 2 ∧
    (upload_artwork dbAlice 2 uploadReq (some "http://img/9") 2).1 =
      .created 1 "approved" ∧
    ((upload_artwork dbAlice 2 uploadReq (some "http://img/9") 2).2.artworks.map
      (fun a => (a.id, a.status, a.approval_date))) = [(1, "approved", none)] ∧
    (upload_artwork dbAlice 2 uploadReq (some "http://img/9") 2).2.moderations
      = [] := by
  decide

/-- C3 (amended): a user registered through the endpoint (which requires
the institutional e-mail and therefore marks them `"verified"`) has any
well-formed upload created with status `"approved"` immediately —
`approval_date` unset and moderation log untouched — so moderation is
bypassed rather than awaited. -/
theorem upload_after_register_is_approved (db : DB) (r : RegisterReq)
    (now₀ : Nat) {uid : Nat} {db₁ : DB}
    (hreg : register db r now₀ = (.success uid, db₁))
    (hfresh : ∀ u ∈ db.users, u.id ≠ db.nextUserId)
    (ur : UploadReq) (fn url : String) (now₁ : Nat)
    (hf : ur.file = some fn) (hemp : fn.isEmpty = false)
    (hall : allowed_file fn = true) (ht : formFalsy ur.title = false)
    (hmed : formFalsy ur.medium = false) (hcat : formFalsy ur.category = false) :
    ∃ a : Artwork,
      upload_artwork db₁ uid ur (some url) now₁ =
        (.created a.id a.status,
          { db₁ with artworks := db₁.artworks ++ [a]
                     nextArtworkId := db₁.nextArtworkId + 1 }) ∧
      a.status = "approved" ∧ a.approval_date = none ∧
      (upload_artwork db₁ uid ur (some url) now₁).2.moderations =
        db₁.moderations := by
  obtain ⟨huid, hv, hnext, u, husers, hid, hver, _, _⟩ := register_success hreg
  subst huid
  have hfind : db₁.users.find? (fun x => x.id = db.nextUserId) = some u := by
    rw [husers, List.find?_append]
    have h1 : db.users.find? (fun x => x.id = db.nextUserId) = none :=
      List.find?_eq_none.mpr (fun x hx => by simpa using hfresh x hx)
    rw [h1]
    simp [List.find?, hid]
  have hup := upload_artwork_success url now₁ u hfind hf hemp hall ht hmed hcat
  refine ⟨uploadedArtwork db₁ u ur url now₁, ?_, ?_, rfl, ?_⟩
  · rw [hup]
    rfl
  · simp [uploadedArtwork, hver]
  · rw [hup]

/-- Witness for the amended C3: the concrete Alice scenario — register on
the seeded database, then upload — yields an immediately approved artwork. -/
theorem upload_after_register_is_approved_witness :
    ∃ a : Artwork,
      upload_artwork dbAlice 2 uploadReq (some "http://img/9") 2 =
        (.created a.id a.status,
          { dbAlice with artworks := dbAlice.artworks ++ [a]
                         nextArtworkId := dbAlice.nextArtworkId + 1 }) ∧
      a.status = "approved" ∧ a.approval_date = none ∧
      (upload_artwork dbAlice 2 uploadReq (some "http://img/9") 2).2.moderations =
        dbAlice.moderations :=
  upload_after_register_is_approved seededDB aliceReq 1 (by decide) (by decide)
    uploadReq "dawn.png" "http://img/9" 2 (by decide) (by decide) (by decide)
    (by decide) (by decide) (by decide)

/-- C4 counterexample: on a database where user 1 already holds a `Like`
row for approved artwork 2, toggling twice re-creates a `Like` row for
that pair, contradicting "leaves no Like row for that (user, artwork)
pair". -/
theorem double_toggle_like_row_cex :
    findArtwork dbLiked 2 = some { artApproved with likes_count := 1 } ∧
    ({ artApproved with likes_count := 1 } : Artwork).status = "approved" ∧
    ((toggle_like (toggle_like dbLiked 1 2 8).2 1 2 9).2.likes.any
      (likePred 1 2)) = true := by
  decide

/-- C4 (amended): for a user who has not yet liked the approved artwork
(no `Like` row for the pair, counters non-negative), toggling twice in
succession restores the like table and the artwork table exactly — hence
the original `likes_count` — and leaves no `Like` row for the pair. -/
theorem double_toggle_restores_state (db : DB) (uid aid n1 n2 : Nat)
    {a : Artwork} (ha : findArtwork db aid = some a)
    (hs : a.status = "approved")
    (hnl : db.likes.find? (likePred uid aid) = none)
    (hpos : ∀ x ∈ db.artworks, x.id = aid → 0 ≤ x.likes_count) :
    (toggle_like (toggle_like db uid aid n1).2 uid aid n2).2.likes = db.likes ∧
    (toggle_like (toggle_like db uid aid n1).2 uid aid n2).2.artworks =
      db.artworks ∧
    findArtwork (toggle_like (toggle_like db uid aid n1).2 uid aid n2).2 aid =
      some a ∧
    ∀ l ∈ (toggle_like (toggle_like db uid aid n1).2 uid aid n2).2.likes,
      ¬ (l.user_id = uid ∧ l.artwork_id = aid) := by
  have e1 : (toggle_like db uid aid n1).2 =
      updateArtwork
        { db with likes := db.likes ++ [⟨db.nextLikeId, uid, aid, n1⟩]
                  nextLikeId := db.nextLikeId + 1 } aid incLike :=
    congrArg Prod.snd (toggle_like_insert n1 ha hs hnl)
  rw [e1]
  set d1 : DB := updateArtwork
      { db with likes := db.likes ++ [⟨db.nextLikeId, uid, aid, n1⟩]
                nextLikeId := db.nextLikeId + 1 } aid incLike with hd1
  have hd1likes : d1.likes = db.likes ++ [⟨db.nextLikeId, uid, aid, n1⟩] := by
    rw [hd1]
    rfl
  have hfind1 : findArtwork d1 aid = some (incLike a) := by
    rw [hd1]
    exact findArtwork_updateArtwork_self incLike (fun _ => rfl) ha
  have hfl1 : d1.likes.find? (likePred uid aid) =
      some ⟨db.nextLikeId, uid, aid, n1⟩ := by
    rw [hd1likes, List.find?_append, hnl]
    simp [likePred]
  have e2 : (toggle_like d1 uid aid n2).2 =
      updateArtwork { d1 with likes := d1.likes.eraseP (likePred uid aid) }
        aid decLike :=
    congrArg Prod.snd (toggle_like_delete n2 hfind1 hs hfl1)
  rw [e2]
  have hany : db.likes.any (likePred uid aid) = false :=
    List.any_eq_false.mpr (List.find?_eq_none.mp hnl)
  have hlikes : (updateArtwork
      { d1 with likes := d1.likes.eraseP (likePred uid aid) }
      aid decLike).likes = db.likes := by
    show d1.likes.eraseP (likePred uid aid) = db.likes
    rw [hd1likes, List.eraseP_append, if_neg (by simp [hany])]
    simp [List.eraseP_cons, likePred]
  have hart : (updateArtwork
      { d1 with likes := d1.likes.eraseP (likePred uid aid) }
      aid decLike).artworks = db.artworks := by
    have hstep : (updateArtwork
        { d1 with likes := d1.likes.eraseP (likePred uid aid) }
        aid decLike).artworks =
        (db.artworks.map (fun x => if x.id = aid then incLike x else x)).map
          (fun x => if x.id = aid then decLike x else x) := by
      rw [hd1]
      rfl
    rw [hstep, List.map_map]
    have hpt : ∀ x ∈ db.artworks,
        ((fun x => if x.id = aid then decLike x else x) ∘
          (fun x => if x.id = aid then incLike x else x)) x = id x := by
      intro x hx
      by_cases hxid : x.id = aid
      · have h0 := hpos x hx hxid
        have h1 : max 0 (x.likes_count + 1 - 1) = x.likes_count := by omega
        simp only [Function.comp, hxid, if_true, id]
        rw [if_pos (show (incLike x).id = aid from hxid)]
        calc decLike (incLike x)
            = { x with likes_count := max 0 (x.likes_count + 1 - 1) } := rfl
          _ = x := by rw [h1]
      · simp only [Function.comp, hxid, if_false, id]
    rw [List.map_congr_left hpt, List.map_id]
  refine ⟨hlikes, hart, ?_, ?_⟩
  · unfold findArtwork
    rw [hart]
    exact ha
  · intro l hl
    rw [hlikes] at hl
    have hnp := List.find?_eq_none.mp hnl l hl
    simpa [likePred] using hnp

/-- Witness for the amended C4: a double toggle by user 1 on the fixture's
approved artwork 2 (not yet liked) restores the whole like and artwork
tables. -/
theorem double_toggle_restores_state_witness :
    (toggle_like (toggle_like dbFix 1 2 5).2 1 2 6).2.likes = dbFix.likes ∧
    (toggle_like (toggle_like dbFix 1 2 5).2 1 2 6).2.artworks =
      dbFix.artworks :=
  ⟨(double_toggle_restores_state dbFix 1 2 5 6
      (by decide : findArtwork dbFix 2 = some artApproved) (by decide)
      (by decide) (by decide)).1,
   (double_toggle_restores_state dbFix 1 2 5 6
      (by decide : findArtwork dbFix 2 = some artApproved) (by decide)
      (by decide) (by decide)).2.1⟩

/-- C8: a comment on an approved artwork is always created and persisted,
with `is_flagged` set exactly when the content contains a blocked keyword
(case-insensitive substring); a flagged comment never appears in the
public comment listing of its artwork, an unflagged one does. -/
theorem comment_flagging_and_listing (db : DB) (uid aid : Nat)
    (content : String) (now : Nat) {a : Artwork}
    (ha : findArtwork db aid = some a) (hs : a.status = "approved")
    (hid : aid ≠ 0) (hc : content.isEmpty = false) :
    ∃ c : Comment,
      add_comment db uid aid content now =
        (.created c,
          { db with comments := db.comments ++ [c]
                    nextCommentId := db.nextCommentId + 1 }) ∧
      c.is_flagged = containsBlocked content ∧
      ∃ L, get_comments (add_comment db uid aid content now).2 aid = .ok L ∧
        (containsBlocked content = true → c ∉ L) ∧
        (containsBlocked content = false → c ∈ L) := by
  set c : Comment :=
    ⟨db.nextCommentId, uid, aid, content, now, containsBlocked content⟩ with hcdef
  have e := add_comment_created uid now hid hc ha hs
  have e2 : (add_comment db uid aid content now).2 =
      { db with comments := db.comments ++ [c]
                nextCommentId := db.nextCommentId + 1 } :=
    congrArg Prod.snd e
  have hfa' : findArtwork
      { db with comments := db.comments ++ [c]
                nextCommentId := db.nextCommentId + 1 } aid = some a := ha
  refine ⟨c, e, rfl, ?_⟩
  refine ⟨sortByTsDesc ((db.comments ++ [c]).filter
      (fun x => x.artwork_id = aid && x.is_flagged = false)), ?_, ?_, ?_⟩
  · rw [e2]
    exact get_comments_ok hfa' hs
  · intro hb hmem
    rw [mem_sortByTsDesc] at hmem
    have hpred := (List.mem_filter.mp hmem).2
    rw [hcdef] at hpred
    simp [hb] at hpred
  · intro hb
    rw [mem_sortByTsDesc]
    refine List.mem_filter.mpr ⟨List.mem_append.mpr (Or.inr ?_), ?_⟩
    · simp
    · rw [hcdef]
      simp [hb]

/-- Witness for C8: the comment `"no spam please"` on the fixture's
approved artwork is persisted flagged and missing from the listing. -/
theorem comment_flagging_and_listing_witness :
    ∃ c : Comment,
      add_comment dbFix 1 2 "no spam please" 5 =
        (.created c,
          { dbFix with comments := dbFix.comments ++ [c]
                       nextCommentId := dbFix.nextCommentId + 1 }) ∧
      c.is_flagged = containsBlocked "no spam please" ∧
      ∃ L, get_comments (add_comment dbFix 1 2 "no spam please" 5).2 2 = .ok L ∧
        (containsBlocked "no spam please" = true → c ∉ L) ∧
        (containsBlocked "no spam please" = false → c ∈ L) :=
  comment_flagging_and_listing dbFix 1 2 "no spam please" 5
    (by decide : findArtwork dbFix 2 = some artApproved) (by decide)
    (by decide) (by decide)

/-- C9: fetching an approved artwork returns it with `views_count` one
higher, commits exactly that increment (no other field, row or table
changes), and `n` repeated fetches add `n` with no deduplication. -/
theorem view_count_increments_per_fetch (db : DB) (aid : Nat) {a : Artwork}
    (ha : findArtwork db aid = some a) (hs : a.status = "approved") :
    (get_artwork db aid).1 = .ok { a with views_count := a.views_count + 1 } ∧
    findArtwork (get_artwork db aid).2 aid =
      some { a with views_count := a.views_count + 1 } ∧
    (get_artwork db aid).2.users = db.users ∧
    (get_artwork db aid).2.likes = db.likes ∧
    (get_artwork db aid).2.comments = db.comments ∧
    (get_artwork db aid).2.moderations = db.moderations ∧
    (∀ x ∈ db.artworks, x.id ≠ aid → x ∈ (get_artwork db aid).2.artworks) ∧
    (∀ n : Nat, findArtwork (fetchN aid n db) aid =
      some { a with views_count := a.views_count + (n : Int) }) := by
  have e := get_artwork_ok ha hs
  have e2 : (get_artwork db aid).2 = updateArtwork db aid incViews :=
    congrArg Prod.snd e
  have hiter : ∀ (n : Nat) (d : DB) (b : Artwork), findArtwork d aid = some b →
      b.status = "approved" →
      findArtwork (fetchN aid n d) aid =
        some { b with views_count := b.views_count + (n : Int) } := by
    intro n
    induction n with
    | zero =>
      intro d b hb hsb
      simp only [fetchN, Nat.cast_zero, add_zero]
      exact hb
    | succ n ih =>
      intro d b hb hsb
      have eb := congrArg Prod.snd (get_artwork_ok hb hsb)
      show findArtwork (fetchN aid n (get_artwork d aid).2) aid = _
      rw [eb]
      have hrec : findArtwork (fetchN aid n (updateArtwork d aid incViews)) aid =
          some { b with views_count := b.views_count + 1 + (n : Int) } :=
        ih (updateArtwork d aid incViews) (incViews b)
          (findArtwork_updateArtwork_self incViews (fun _ => rfl) hb) hsb
      have harith : b.views_count + 1 + (n : Int) =
          b.views_count + ((n + 1 : Nat) : Int) := by
        push_cast
        ring
      rw [harith] at hrec
      exact hrec
  refine ⟨congrArg Prod.fst e, ?_, ?_, ?_, ?_, ?_, ?_, fun n => hiter n db a ha hs⟩
  · rw [e2]
    exact findArtwork_updateArtwork_self incViews (fun _ => rfl) ha
  · rw [e2]
    exact updateArtwork_users db aid incViews
  · rw [e2]
    exact updateArtwork_likes db aid incViews
  · rw [e2]
    exact updateArtwork_comments db aid incViews
  · rw [e2]
    exact updateArtwork_moderations db aid incViews
  · intro x hx hne
    rw [e2]
    exact List.mem_map.mpr ⟨x, hx, if_neg hne⟩

/-- Witness for C9: fetching the fixture's approved artwork once and five
times bumps its view counter by one and five. -/
theorem view_count_increments_per_fetch_witness :
    (get_artwork dbFix 2).1 =
      .ok { artApproved with views_count := artApproved.views_count + 1 } ∧
    findArtwork (fetchN 2 5 dbFix) 2 =
      some { artApproved with views_count := artApproved.views_count + (5 : Int) } := by
  have h := view_count_increments_per_fetch dbFix 2
    (by decide : findArtwork dbFix 2 = some artApproved) (by decide)
  exact ⟨h.1, h.2.2.2.2.2.2.2 5⟩

end Artgrid
